import Mathlib

/-!
Verification of the rewrite-synthesis core of `c2rust-analyze`
(files `rewrite/mod.rs`, `rewrite/expr/mir_op.rs`, `rewrite/expr/unlower.rs`).

The Rust data types and functions are shallowly embedded as Lean
definitions, keeping the source's structure and names.  Machine details
irrelevant to the claims (interned types, spans, HIR ids) are modelled as
`Nat` identifiers; panics (`assert!`, `todo!`, `unreachable!`) are
modelled as `Option.none` results.
-/

set_option autoImplicit false

namespace C2Rust

/-- The `rustc_hir::Mutability` (`Not` = immutable, `Mut` = mutable). -/
inductive Mutability where
  | Not
  | Mut
  deriving DecidableEq, Repr

/-- Ownership component of a `TypeDesc`.
Modelled from the spec: the `crate::type_desc::Ownership` enum itself is not
under `src/`; the spec gives `{Imm, Mut, Cell, Raw...}`, and `mir_op.rs`
matches on `Imm`, `Mut`, `Cell` with a catch-all for the remaining raw
variants, which we represent as `Raw` and `RawMut`. -/
inductive Ownership where
  | Raw
  | RawMut
  | Imm
  | Cell
  | Mut
  deriving DecidableEq, Repr

/-- Quantity component of a `TypeDesc`.
Modelled from the spec: `crate::type_desc::Quantity` is not under `src/`;
the spec and `mir_op.rs` name the variants `Single`, `Slice`, `OffsetPtr`,
`Array`. -/
inductive Quantity where
  | Single
  | Slice
  | OffsetPtr
  | Array
  deriving DecidableEq, Repr

/-- The `crate::type_desc::TypeDesc`: ownership × quantity × pointee type.
The pointee type (an interned `Ty`) is modelled as a `Nat` identifier;
`erase_regions` is the identity on these identifiers. -/
structure TypeDesc where
  own : Ownership
  qty : Quantity
  pointee_ty : Nat
  deriving DecidableEq, Repr

/-- The `rewrite::Rewrite` from `rewrite/mod.rs` (spans modelled as `Nat`). -/
inductive Rewrite where
  | Identity
  | Sub (i : Nat) (s : Nat)
  | Ref (rw : Rewrite) (mutbl : Mutability)
  | AddrOf (rw : Rewrite) (mutbl : Mutability)
  | Deref (rw : Rewrite)
  | Index (arr : Rewrite) (idx : Rewrite)
  | SliceTail (arr : Rewrite) (idx : Rewrite)
  | CastUsize (rw : Rewrite)
  | LitZero
  | PrintTy (s : String)
  | TyPtr (rw : Rewrite) (mutbl : Mutability)
  | TyRef (rw : Rewrite) (mutbl : Mutability)
  | TySlice (rw : Rewrite)
  | TyCtor (name : String) (args : List Rewrite)

/-- The `parenthesize_if` helper inside `Rewrite::pretty`. -/
def parenthesizeIf (cond : Bool) (s : String) : String :=
  if cond then "(" ++ s ++ ")" else s

mutual

/-- The `Rewrite::pretty` from `rewrite/mod.rs`: `prec` is the precedence of
the surrounding context; writes to the formatter are modelled as string
concatenation. -/
def Rewrite.pretty : Rewrite → Nat → String
  | .Identity, _ => "$e"
  | .Sub i _, _ => "$" ++ toString i
  | .Ref rw mutbl, prec =>
      parenthesizeIf (decide (prec > 2))
        ((match mutbl with
          | .Not => "&"
          | .Mut => "&mut ") ++ rw.pretty 2)
  | .AddrOf rw mutbl, _ =>
      (match mutbl with
       | .Not => "core::ptr::addr_of!"
       | .Mut => "core::ptr::addr_of_mut!") ++ "(" ++ rw.pretty 0 ++ ")"
  | .Deref rw, prec =>
      parenthesizeIf (decide (prec > 2)) ("*" ++ rw.pretty 2)
  | .Index arr idx, prec =>
      parenthesizeIf (decide (prec > 3))
        (arr.pretty 3 ++ "[" ++ idx.pretty 0 ++ "]")
  | .SliceTail arr idx, prec =>
      parenthesizeIf (decide (prec > 3))
        (arr.pretty 3 ++ "[" ++ idx.pretty 999 ++ " ..]")
  | .CastUsize rw, prec =>
      parenthesizeIf (decide (prec > 1)) (rw.pretty 1 ++ " as usize")
  | .LitZero, _ => "0"
  | .PrintTy s, _ => s
  | .TyPtr rw mutbl, _ =>
      (match mutbl with
       | .Not => "*const "
       | .Mut => "*mut ") ++ rw.pretty 0
  | .TyRef rw mutbl, _ =>
      (match mutbl with
       | .Not => "&"
       | .Mut => "&mut ") ++ rw.pretty 0
  | .TySlice rw, _ => "[" ++ rw.pretty 0 ++ "]"
  | .TyCtor name args, _ => name ++ "<" ++ Rewrite.prettyArgs args ++ ">"

/-- The `for rw in rws` loop of the `TyCtor` arm of `Rewrite::pretty`. -/
def Rewrite.prettyArgs : List Rewrite → String
  | [] => ""
  | rw :: rws => rw.pretty 0 ++ Rewrite.prettyArgs rws

end

/-- The `Display` impl for `Rewrite` calls `pretty` with a `prec` of 0. -/
def Rewrite.display (rw : Rewrite) : String :=
  rw.pretty 0

/-- The precedence class a `Rewrite` node carries per the comment in
`Rewrite::pretty`: `Index`/`SliceTail` = 3, `Ref`/`Deref` = 2,
`CastUsize` = 1; all other constructors have no precedence class and are
never parenthesized. -/
def Rewrite.exprPrec : Rewrite → Option Nat
  | .Index _ _ => some 3
  | .SliceTail _ _ => some 3
  | .Ref _ _ => some 2
  | .Deref _ => some 2
  | .CastUsize _ => some 1
  | _ => none

/-- A child is parenthesized iff it has a precedence class and that class
is strictly lower than the precedence demanded by the parent position. -/
def Rewrite.needParen (rw : Rewrite) (prec : Nat) : Bool :=
  match rw.exprPrec with
  | some p => decide (p < prec)
  | none => false

/-- Helper: `pretty` at any surrounding precedence equals the plain form
(`pretty` at precedence 0) with parentheses added exactly when the node's
own precedence class is strictly below the demanded precedence. -/
theorem Rewrite.pretty_eq_parenthesizeIf (rw : Rewrite) (prec : Nat) :
    rw.pretty prec = parenthesizeIf (rw.needParen prec) (rw.pretty 0) := by
  cases rw <;>
    simp [Rewrite.pretty, Rewrite.needParen, Rewrite.exprPrec, parenthesizeIf]

/-- Claim C1: for every `Rewrite` expression tree, pretty-printing
parenthesizes a child iff the child's own precedence class
(`Index`/`SliceTail` = 3, `Ref`/`Deref` = 2, `CastUsize` = 1) is strictly
lower than the precedence demanded by its parent position (nodes with no
precedence class are never parenthesized); in particular the six sample
trees print as the hand-computed strings.  The first conjunct states the
parenthesization rule for every subtree position, since every recursive
call inside `pretty` passes the precedence its position demands. -/
theorem claim_C1 :
    (∀ (rw : Rewrite) (prec : Nat),
        rw.pretty prec = parenthesizeIf (rw.needParen prec) (rw.pretty 0)) ∧
    Rewrite.display (.Ref (.Index .Identity .Identity) .Not) = "&$e[$e]" ∧
    Rewrite.display (.Index (.Ref .Identity .Not) (.Ref .Identity .Not)) =
      "(&$e)[&$e]" ∧
    Rewrite.display (.CastUsize (.Ref .Identity .Not)) = "&$e as usize" ∧
    Rewrite.display (.Ref (.CastUsize .Identity) .Not) = "&($e as usize)" ∧
    Rewrite.display (.Index (.CastUsize .Identity) (.CastUsize .Identity)) =
      "($e as usize)[$e as usize]" ∧
    Rewrite.display (.Index (.Index .Identity .Identity) .Identity) =
      "$e[$e][$e]" :=
  ⟨Rewrite.pretty_eq_parenthesizeIf, rfl, rfl, rfl, rfl, rfl, rfl⟩

/-- Claim C9 counterexample: the index sub-tree of `SliceTail` is *not*
parenthesized when it is a precedence-less leaf such as `Identity`:
`SliceTail(Identity, Identity)` prints as the string with a bare `$e`
before the range marker, not with `($e)` as the claim requires. -/
theorem claim_C9_counterexample :
    Rewrite.display (.SliceTail .Identity .Identity) = "$e[$e ..]" ∧
    Rewrite.display (.SliceTail .Identity .Identity) ≠ "$e[($e) ..]" :=
  ⟨rfl, by decide⟩

/-- Claim C9 amended: `SliceTail` prints its index sub-tree at the
sentinel precedence 999 and then the marker `" ..]"`, so every index
sub-tree that carries a precedence class (`Ref`, `Deref`, `Index`,
`SliceTail`, `CastUsize`) is parenthesized, while precedence-less nodes
(`Identity`, `Sub`, `LitZero`, `AddrOf`, type builders) print without
added parentheses. -/
theorem claim_C9_amended (arr idx : Rewrite) (prec : Nat) :
    (Rewrite.SliceTail arr idx).pretty prec =
      parenthesizeIf (decide (prec > 3))
        (arr.pretty 3 ++ "[" ++ parenthesizeIf (idx.needParen 999) (idx.pretty 0)
          ++ " ..]") := by
  rw [show (Rewrite.SliceTail arr idx).pretty prec
        = parenthesizeIf (decide (prec > 3))
            (arr.pretty 3 ++ "[" ++ idx.pretty 999 ++ " ..]") from rfl,
      Rewrite.pretty_eq_parenthesizeIf idx 999]

/-! ## MIR-level rewrite annotator (`rewrite/expr/mir_op.rs`) -/

/-- The `rustc_middle::mir::Location`: basic block plus statement index. -/
structure Location where
  block : Nat
  statement_index : Nat
  deriving DecidableEq, Repr

/-- The `SubLoc` from `mir_op.rs`.  The constructor `Rvalue` is referenced by
`unlower.rs` (as `SubLoc::Rvalue`, the right-hand side of an assignment or
call) in this snapshot of the repository, alongside `AssignRvalue` used by
`mir_op.rs`; the embedding carries both. -/
inductive SubLoc where
  | Dest
  | AssignRvalue
  | CallArg (i : Nat)
  | RvalueOperand (i : Nat)
  | RvaluePlace (i : Nat)
  | OperandPlace
  | PlacePointer (i : Nat)
  | Rvalue
  deriving DecidableEq, Repr

/-- The `RewriteKind` from `mir_op.rs`. -/
inductive RewriteKind where
  | OffsetSlice (mutbl : Bool)
  | SliceFirst (mutbl : Bool)
  | MutToImm
  | RemoveAsPtr
  | RawToRef (mutbl : Bool)
  | CellNew
  | CellGet
  | CellSet
  deriving DecidableEq, Repr

/-- A single projection element of a MIR `Place`; only whether it is a
deref matters to this code (`is_indirect`). -/
inductive PlaceElem where
  | Deref
  | Other
  deriving DecidableEq, Repr

/-- The `rustc_middle::mir::Place`: a local plus projections. -/
structure Place where
  local_id : Nat
  projection : List PlaceElem
  deriving DecidableEq, Repr

/-- The `Place::is_indirect`: the projection contains a deref. -/
def Place.is_indirect (pl : Place) : Bool :=
  pl.projection.any fun e =>
    match e with
    | .Deref => true
    | .Other => false

/-- The `rustc_middle::mir::Operand` (constants carry no place). -/
inductive Operand where
  | Copy (pl : Place)
  | Move (pl : Place)
  | Constant
  deriving DecidableEq, Repr

/-- The `Operand::place`. -/
def Operand.place : Operand → Option Place
  | .Copy pl => some pl
  | .Move pl => some pl
  | .Constant => none

/-- The `rustc_middle::mir::Rvalue`, keeping exactly the payloads
`visit_rvalue` touches. -/
inductive Rvalue where
  | Use (op : Operand)
  | Repeat (op : Operand)
  | Ref (pl : Place)
  | ThreadLocalRef
  | AddressOf (mutbl : Mutability) (pl : Place)
  | Len (pl : Place)
  | Cast (op : Operand)
  | BinaryOp (op1 : Operand) (op2 : Operand)
  | CheckedBinaryOp (op1 : Operand) (op2 : Operand)
  | NullaryOp
  | UnaryOp (op : Operand)
  | Discriminant (pl : Place)
  | Aggregate (ops : List Operand)
  | ShallowInitBox (op : Operand)
  | CopyForDeref (pl : Place)

/-- The `matches!(rv, Rvalue::Cast(..))`. -/
def Rvalue.isCast : Rvalue → Bool
  | .Cast _ => true
  | _ => false

/-- The `rustc_middle::mir::StatementKind`, with the payloads used by
`visit_statement`. -/
inductive StatementKind where
  | Assign (pl : Place) (rv : Rvalue)
  | FakeRead
  | SetDiscriminant
  | Deinit
  | StorageLive
  | StorageDead
  | Retag
  | AscribeUserType
  | Coverage
  | CopyNonOverlapping
  | Nop

/-- The `rustc_middle::mir::TerminatorKind`, with the payloads used by
`visit_terminator`; the callee function operand is a `Nat` identifier
classified by the analysis context. -/
inductive TerminatorKind where
  | Goto
  | SwitchInt
  | Resume
  | Abort
  | Return
  | Unreachable
  | Drop
  | DropAndReplace
  | Call (func : Nat) (args : List Operand) (destination : Place)
  | Assert
  | Yield
  | GeneratorDrop
  | FalseEdge
  | FalseUnwind
  | InlineAsm

/-- The result of `util::ty_callee`, restricted to the cases
`visit_terminator` distinguishes. -/
inductive Callee where
  | PtrOffset
  | SliceAsPtr
  | Other
  deriving DecidableEq, Repr

/-- A labeled type (`LTy`), abstracted to the three facts the annotator
reads from it: whether its pointer label `is_none`, whether the `Ty` is a
raw pointer, and the `TypeDesc` that `type_desc::perms_to_desc` computes
for it from the permission and flag tables. -/
structure LTy where
  label_is_none : Bool
  is_raw_ptr : Bool
  desc : TypeDesc
  deriving DecidableEq, Repr

/-- The analysis context consulted by the annotator (`acx`, `perms`,
`flags` and the `type_desc` resolver), abstracted to the queries
`mir_op.rs` makes of it.  Each field is the composition of a source-side
lookup with `perms_to_desc`/`local_perms_to_desc` where applicable. -/
structure AnalysisCtx where
  /-- The `acx.c_void_casts.should_skip_stmt(loc)`. -/
  should_skip_stmt : Location → Bool
  /-- The `acx.local_tys[l].ty.is_any_ptr()`. -/
  local_is_any_ptr : Nat → Bool
  /-- The `perms_to_desc(local_tys[l].ty, perms[local_tys[l].label], flags[..])`. -/
  local_desc : Nat → TypeDesc
  /-- The `local_perms_to_desc(local_tys[l].ty, perms[addr_of_local[l]], flags[..])`. -/
  local_addr_desc : Nat → TypeDesc
  /-- The `flags[local_tys[l].label].contains(FlagSet::CELL)`. -/
  local_flags_cell : Nat → Bool
  /-- The `acx.type_of(pl)`. -/
  type_of_place : Place → LTy
  /-- The `acx.type_of_rvalue(rv, loc)`. -/
  type_of_rvalue : Rvalue → Location → LTy
  /-- The `acx.type_of(op)`. -/
  type_of_operand : Operand → LTy
  /-- The `ty_callee(tcx, func_ty)` for the callee identifier. -/
  callee : Nat → Callee

/-- The mutable fields of `ExprRewriteVisitor`: the current location, the
sub-location path stack, and the emission log.  The log keeps every
`MirRewrite` in emission order together with the location it was keyed
under (`rewrites.entry(self.loc)`). -/
structure VisitorState where
  loc : Location
  sub_loc : List SubLoc
  rewrites : List (Location × List SubLoc × RewriteKind)
  deriving DecidableEq, Repr

/-- The `ExprRewriteVisitor::emit`: push `MirRewrite { kind, sub_loc }` onto
`rewrites[self.loc]`. -/
def emit (k : RewriteKind) (st : VisitorState) : VisitorState :=
  { st with rewrites := st.rewrites ++ [(st.loc, st.sub_loc, k)] }

/-- The `ExprRewriteVisitor::enter`: push `sub`, run the body, pop.  A `none`
result models a panic, which unwinds past the pop. -/
def enter (sub : SubLoc) (f : VisitorState → Option VisitorState)
    (st : VisitorState) : Option VisitorState :=
  match f { st with sub_loc := st.sub_loc ++ [sub] } with
  | none => none
  | some st' => some { st' with sub_loc := st'.sub_loc.dropLast }

/-- The `ExprRewriteVisitor::emit_cast_desc_desc`, as a pure function on the
two descriptors.  `none` models the `assert_eq!` on the (region-erased)
pointee types failing; otherwise the result is the list of emitted
`RewriteKind`s together with whether the `unsupported cast kind`
diagnostic was printed. -/
def emit_cast_desc_desc (a b : TypeDesc) :
    Option (List RewriteKind × Bool) :=
  if a.pointee_ty ≠ b.pointee_ty then none
  else if a = b then some ([], false)
  else if a.qty = b.qty ∧ (a.own, b.own) = (Ownership.Mut, Ownership.Imm) then
    some ([.MutToImm], false)
  else some ([], true)

/-- The `emit_cast_desc_desc` acting on the visitor state: each computed kind
is emitted at the current location and sub-location path. -/
def emit_cast_desc_desc_v (a b : TypeDesc) (st : VisitorState) :
    Option VisitorState :=
  match emit_cast_desc_desc a b with
  | none => none
  | some (ops, _diag) => some (ops.foldl (fun s k => emit k s) st)

/-- The `ExprRewriteVisitor::emit_cast_lty_desc`. -/
def emit_cast_lty_desc (from_lty : LTy) (to_desc : TypeDesc) (st : VisitorState) :
    Option VisitorState :=
  emit_cast_desc_desc_v from_lty.desc to_desc st

/-- The `ExprRewriteVisitor::emit_cast_lty_lty`. -/
def emit_cast_lty_lty (a b : LTy) (st : VisitorState) : Option VisitorState :=
  if a.label_is_none && b.label_is_none then some st
  else if !a.is_raw_ptr && !b.is_raw_ptr then some st
  else emit_cast_desc_desc_v a.desc b.desc st

/-- The `ExprRewriteVisitor::visit_place` (currently a no-op in the source). -/
def visit_place (_pl : Place) (st : VisitorState) : Option VisitorState :=
  some st

/-- The `ExprRewriteVisitor::visit_operand`. -/
def visit_operand (ctx : AnalysisCtx) (op : Operand) (expect_ty : Option LTy)
    (st : VisitorState) : Option VisitorState :=
  match op with
  | .Copy pl | .Move pl =>
      match expect_ty with
      | some expect =>
          let ptr_lty := ctx.type_of_place pl
          if !ptr_lty.label_is_none then emit_cast_lty_lty ptr_lty expect st
          else some st
      | none => some st
  | .Constant => some st

/-- The `ExprRewriteVisitor::visit_operand_desc`. -/
def visit_operand_desc (ctx : AnalysisCtx) (op : Operand)
    (expect_desc : TypeDesc) (st : VisitorState) : Option VisitorState :=
  match op with
  | .Copy pl | .Move pl =>
      let ptr_lty := ctx.type_of_place pl
      if !ptr_lty.label_is_none then emit_cast_lty_desc ptr_lty expect_desc st
      else some st
  | .Constant => some st

/-- The `Rvalue::Aggregate` loop of `visit_rvalue`. -/
def visit_aggregate_ops (ctx : AnalysisCtx) :
    Nat → List Operand → VisitorState → Option VisitorState
  | _, [], st => some st
  | i, op :: rest, st =>
      (enter (.RvalueOperand i) (visit_operand ctx op none) st).bind
        (visit_aggregate_ops ctx (i + 1) rest)

/-- The `ExprRewriteVisitor::visit_rvalue`. -/
def visit_rvalue (ctx : AnalysisCtx) (rv : Rvalue) (expect_ty : Option LTy)
    (st : VisitorState) : Option VisitorState :=
  match rv with
  | .Use op => enter (.RvalueOperand 0) (visit_operand ctx op expect_ty) st
  | .Repeat op => enter (.RvalueOperand 0) (visit_operand ctx op none) st
  | .Ref pl => enter (.RvaluePlace 0) (visit_place pl) st
  | .ThreadLocalRef => some st
  | .AddressOf mutbl pl =>
      (enter (.RvaluePlace 0) (visit_place pl) st).bind fun st1 =>
        match expect_ty with
        | some expect =>
            let desc := expect.desc
            enter (.RvalueOperand 0)
              (fun v =>
                match desc.own with
                | .Cell => some (emit (.RawToRef false) v)
                | .Imm | .Mut =>
                    some (emit (.RawToRef (decide (mutbl = .Mut))) v)
                | _ => some v)
              st1
        | none => some st1
  | .Len pl => enter (.RvaluePlace 0) (visit_place pl) st
  | .Cast op => enter (.RvalueOperand 0) (visit_operand ctx op none) st
  | .BinaryOp op1 op2 =>
      (enter (.RvalueOperand 0) (visit_operand ctx op1 none) st).bind
        (enter (.RvalueOperand 1) (visit_operand ctx op2 none))
  | .CheckedBinaryOp op1 op2 =>
      (enter (.RvalueOperand 0) (visit_operand ctx op1 none) st).bind
        (enter (.RvalueOperand 1) (visit_operand ctx op2 none))
  | .NullaryOp => some st
  | .UnaryOp op => enter (.RvalueOperand 0) (visit_operand ctx op none) st
  | .Discriminant pl => enter (.RvaluePlace 0) (visit_place pl) st
  | .Aggregate ops => visit_aggregate_ops ctx 0 ops st
  | .ShallowInitBox op => enter (.RvalueOperand 0) (visit_operand ctx op none) st
  | .CopyForDeref pl => enter (.RvaluePlace 0) (visit_place pl) st

/-- The `arg_expect_desc` computation of `visit_ptr_offset`: widen the
result quantity (`Single` to `Slice`, others pass through), keeping the
result's ownership and pointee type.  `none` models the `unreachable!`
for `Quantity::Array`. -/
def ptr_offset_arg_expect (result_desc : TypeDesc) : Option TypeDesc :=
  match result_desc.qty with
  | .Single =>
      some { own := result_desc.own, qty := Quantity.Slice,
             pointee_ty := result_desc.pointee_ty }
  | .Slice =>
      some { own := result_desc.own, qty := Quantity.Slice,
             pointee_ty := result_desc.pointee_ty }
  | .OffsetPtr =>
      some { own := result_desc.own, qty := Quantity.OffsetPtr,
             pointee_ty := result_desc.pointee_ty }
  | .Array => none

/-- The `ExprRewriteVisitor::visit_ptr_offset`.  `none` models the
`unreachable!` for `Quantity::Array` and the assertion inside the
argument cast. -/
def visit_ptr_offset (ctx : AnalysisCtx) (op : Operand) (result_ty : LTy)
    (st : VisitorState) : Option VisitorState :=
  let result_desc := result_ty.desc
  match ptr_offset_arg_expect result_desc with
  | none => none
  | some arg_expect_desc =>
      (enter (.CallArg 0) (visit_operand_desc ctx op arg_expect_desc) st).bind
        fun st1 =>
          let mutbl := decide (result_desc.own = Ownership.Mut)
          let st2 := emit (.OffsetSlice mutbl) st1
          some (if result_desc.qty = Quantity.Single
                then emit (.SliceFirst mutbl) st2
                else st2)

/-- The `ExprRewriteVisitor::visit_slice_as_ptr`. -/
def visit_slice_as_ptr (ctx : AnalysisCtx) (op : Operand) (result_lty : LTy)
    (st : VisitorState) : Option VisitorState :=
  let op_desc := (ctx.type_of_operand op).desc
  let result_desc := result_lty.desc
  if op_desc.own = result_desc.own ∧ op_desc.qty = result_desc.qty then
    some (emit .RemoveAsPtr st)
  else some st

/-- The `ExprRewriteVisitor::visit_statement`.  `none` models the `todo!`
panics for `SetDiscriminant` and `CopyNonOverlapping` and any panic from
the cast helper. -/
def visit_statement (ctx : AnalysisCtx) (stmt : StatementKind) (loc : Location)
    (st : VisitorState) : Option VisitorState :=
  let st := { st with loc := loc }
  match stmt with
  | .Assign pl rv =>
      if rv.isCast && ctx.should_skip_stmt loc then some st
      else
        let pl_lty := ctx.type_of_place pl
        (if pl.is_indirect && ctx.local_is_any_ptr pl.local_id
            && decide ((ctx.local_desc pl.local_id).own = Ownership.Cell)
         then enter .AssignRvalue (fun v => some (emit .CellSet v)) st
         else some st).bind fun st1 =>
        (match rv with
         | .Use rv_op =>
             (if decide ((ctx.local_addr_desc pl.local_id).own = Ownership.Cell)
              then enter .AssignRvalue
                     (fun v => enter (.RvalueOperand 0)
                       (fun w => some (emit .CellNew w)) v) st1
              else some st1).bind fun st2 =>
             (match rv_op.place with
              | some rv_pl =>
                  if rv_pl.is_indirect && ctx.local_is_any_ptr rv_pl.local_id
                     && ctx.local_flags_cell rv_pl.local_id
                  then enter .AssignRvalue
                         (fun v => enter (.RvalueOperand 0)
                           (fun w => some (emit .CellGet w)) v) st2
                  else some st2
              | none => some st2)
         | _ => some st1).bind fun st3 =>
        let rv_lty := ctx.type_of_rvalue rv loc
        (enter .AssignRvalue (visit_rvalue ctx rv (some rv_lty)) st3).bind
          fun st4 =>
        (emit_cast_lty_lty rv_lty pl_lty st4).bind fun st5 =>
        enter .Dest (visit_place pl) st5
  | .FakeRead => some st
  | .SetDiscriminant => none
  | .Deinit => some st
  | .StorageLive => some st
  | .StorageDead => some st
  | .Retag => some st
  | .AscribeUserType => some st
  | .Coverage => some st
  | .CopyNonOverlapping => none
  | .Nop => some st

/-- The `ExprRewriteVisitor::visit_terminator`.  `none` models the `todo!`
for `InlineAsm` and the `args[0]` panic on an empty argument list. -/
def visit_terminator (ctx : AnalysisCtx) (term : TerminatorKind)
    (loc : Location) (st : VisitorState) : Option VisitorState :=
  let st := { st with loc := loc }
  match term with
  | .Call func args destination =>
      let pl_ty := ctx.type_of_place destination
      match ctx.callee func with
      | .PtrOffset =>
          match args.head? with
          | some arg0 => visit_ptr_offset ctx arg0 pl_ty st
          | none => none
      | .SliceAsPtr =>
          match args.head? with
          | some arg0 => visit_slice_as_ptr ctx arg0 pl_ty st
          | none => none
      | .Other => some st
  | .InlineAsm => none
  | _ => some st

/-- One instruction of a MIR body: a statement or a terminator. -/
inductive Instr where
  | stmt (k : StatementKind)
  | term (k : TerminatorKind)

/-- Dispatch one instruction at its location, as the loop body of
`gen_mir_rewrites` does. -/
def visit_instr (ctx : AnalysisCtx) (i : Location × Instr) (st : VisitorState) :
    Option VisitorState :=
  match i.2 with
  | .stmt s => visit_statement ctx s i.1 st
  | .term t => visit_terminator ctx t i.1 st

/-- Run a sequence of instructions in program order. -/
def run_instrs (ctx : AnalysisCtx) :
    List (Location × Instr) → VisitorState → Option VisitorState
  | [], st => some st
  | i :: rest, st => (visit_instr ctx i st).bind (run_instrs ctx rest)

/-- A basic block: statements plus an optional terminator. -/
structure BasicBlockData where
  statements : List StatementKind
  terminator : Option TerminatorKind

/-- The instruction sequence of one basic block, with the locations
`gen_mir_rewrites` assigns. -/
def block_instrs (bb_id : Nat) (bb : BasicBlockData) :
    List (Location × Instr) :=
  (bb.statements.enum.map fun p =>
    ((⟨bb_id, p.1⟩ : Location), Instr.stmt p.2)) ++
  (match bb.terminator with
   | some t => [((⟨bb_id, bb.statements.length⟩ : Location), Instr.term t)]
   | none => [])

/-- All instructions of a body in program order. -/
def body_instrs (body : List BasicBlockData) : List (Location × Instr) :=
  (body.enum.map fun p => block_instrs p.1 p.2).flatten

/-- The visitor's initial state built by `ExprRewriteVisitor::new`. -/
def init_state : VisitorState :=
  { loc := ⟨0, 0⟩, sub_loc := [], rewrites := [] }

/-- The `gen_mir_rewrites`: walk every basic block and return the emission
log (`none` models an aborted session). -/
def gen_mir_rewrites (ctx : AnalysisCtx) (body : List BasicBlockData) :
    Option (List (Location × List SubLoc × RewriteKind)) :=
  (run_instrs ctx (body_instrs body) init_state).map (·.rewrites)

/-! ### Helper lemmas about the visitor -/

/-- The `f` leaves the sub-location path stack exactly as it found it on
every successful return path. -/
def KeepsSubLoc (f : VisitorState → Option VisitorState) : Prop :=
  ∀ st st', f st = some st' → st'.sub_loc = st.sub_loc

theorem emit_sub_loc (k : RewriteKind) (st : VisitorState) :
    (emit k st).sub_loc = st.sub_loc := rfl

theorem emit_loc (k : RewriteKind) (st : VisitorState) :
    (emit k st).loc = st.loc := rfl

theorem foldl_emit_sub_loc (ops : List RewriteKind) (st : VisitorState) :
    (ops.foldl (fun s k => emit k s) st).sub_loc = st.sub_loc := by
  induction ops generalizing st with
  | nil => rfl
  | cons k rest ih => rw [List.foldl_cons, ih]; rfl

theorem foldl_emit_loc (ops : List RewriteKind) (st : VisitorState) :
    (ops.foldl (fun s k => emit k s) st).loc = st.loc := by
  induction ops generalizing st with
  | nil => rfl
  | cons k rest ih => rw [List.foldl_cons, ih]; rfl

theorem foldl_emit_rewrites (ops : List RewriteKind) (st : VisitorState) :
    (ops.foldl (fun s k => emit k s) st).rewrites =
      st.rewrites ++ ops.map (fun k => (st.loc, st.sub_loc, k)) := by
  induction ops generalizing st with
  | nil => simp
  | cons k rest ih =>
      rw [List.foldl_cons, ih]
      simp [emit]

theorem enter_keeps (sub : SubLoc) (f : VisitorState → Option VisitorState)
    (hf : KeepsSubLoc f) : KeepsSubLoc (enter sub f) := by
  intro st st' h
  unfold enter at h
  cases hfe : f { st with sub_loc := st.sub_loc ++ [sub] } with
  | none => rw [hfe] at h; cases h
  | some st1 =>
      rw [hfe] at h
      have h1 := hf _ _ hfe
      injection h with h
      rw [← h]
      simp [h1]

theorem emit_cast_desc_desc_v_keeps (a b : TypeDesc) :
    KeepsSubLoc (emit_cast_desc_desc_v a b) := by
  intro st st' h
  unfold emit_cast_desc_desc_v at h
  split at h
  · cases h
  · injection h with h
    rw [← h, foldl_emit_sub_loc]

theorem emit_cast_lty_desc_keeps (a : LTy) (d : TypeDesc) :
    KeepsSubLoc (emit_cast_lty_desc a d) :=
  emit_cast_desc_desc_v_keeps a.desc d

theorem emit_cast_lty_lty_keeps (a b : LTy) :
    KeepsSubLoc (emit_cast_lty_lty a b) := by
  intro st st' h
  unfold emit_cast_lty_lty at h
  split at h
  · cases h; rfl
  · split at h
    · cases h; rfl
    · exact emit_cast_desc_desc_v_keeps _ _ _ _ h

theorem visit_place_keeps (pl : Place) : KeepsSubLoc (visit_place pl) := by
  intro st st' h
  cases h; rfl

theorem visit_operand_keeps (ctx : AnalysisCtx) (op : Operand)
    (expect_ty : Option LTy) : KeepsSubLoc (visit_operand ctx op expect_ty) := by
  intro st st' h
  unfold visit_operand at h
  cases op <;> try (cases h; rfl)
  all_goals
    cases expect_ty with
    | none => cases h; rfl
    | some expect =>
        simp only at h
        split at h
        · exact emit_cast_lty_lty_keeps _ _ _ _ h
        · cases h; rfl

theorem visit_operand_desc_keeps (ctx : AnalysisCtx) (op : Operand)
    (d : TypeDesc) : KeepsSubLoc (visit_operand_desc ctx op d) := by
  intro st st' h
  unfold visit_operand_desc at h
  cases op <;> try (cases h; rfl)
  all_goals
    simp only at h
    split at h
    · exact emit_cast_lty_desc_keeps _ _ _ _ h
    · cases h; rfl

theorem visit_aggregate_ops_keeps (ctx : AnalysisCtx) (i : Nat)
    (ops : List Operand) : KeepsSubLoc (visit_aggregate_ops ctx i ops) := by
  induction ops generalizing i with
  | nil => intro st st' h; cases h; rfl
  | cons op rest ih =>
      intro st st' h
      unfold visit_aggregate_ops at h
      rw [Option.bind_eq_some] at h
      obtain ⟨st1, h1, h2⟩ := h
      rw [ih _ _ _ h2]
      exact enter_keeps _ _ (visit_operand_keeps ctx op none) _ _ h1

theorem visit_rvalue_keeps (ctx : AnalysisCtx) (rv : Rvalue)
    (expect_ty : Option LTy) : KeepsSubLoc (visit_rvalue ctx rv expect_ty) := by
  intro st st' h
  unfold visit_rvalue at h
  cases rv <;>
    first
    | (cases h; rfl)
    | exact enter_keeps _ _ (visit_operand_keeps ctx _ _) _ _ h
    | exact enter_keeps _ _ (visit_place_keeps _) _ _ h
    | exact visit_aggregate_ops_keeps ctx 0 _ _ _ h
    | -- binary and checked-binary operators
      (rw [Option.bind_eq_some] at h
       obtain ⟨st1, h1, h2⟩ := h
       rw [enter_keeps _ _ (visit_operand_keeps ctx _ none) _ _ h2]
       exact enter_keeps _ _ (visit_operand_keeps ctx _ none) _ _ h1)
    | -- AddressOf
      (rw [Option.bind_eq_some] at h
       obtain ⟨st1, h1, h2⟩ := h
       have hst1 := enter_keeps _ _ (visit_place_keeps _) _ _ h1
       cases expect_ty with
       | none => cases h2; exact hst1
       | some expect =>
           simp only at h2
           refine (enter_keeps _ _ ?_ _ _ h2).trans hst1
           intro u u' hu
           split at hu <;> (cases hu; rfl))

theorem keeps_emit_some (k : RewriteKind) :
    KeepsSubLoc (fun v => some (emit k v)) := by
  intro u u' hu
  cases hu
  rfl

theorem keeps_enter_emit (sub : SubLoc) (k : RewriteKind) :
    KeepsSubLoc (fun v => enter sub (fun w => some (emit k w)) v) :=
  enter_keeps sub _ (keeps_emit_some k)

theorem visit_ptr_offset_keeps (ctx : AnalysisCtx) (op : Operand)
    (result_ty : LTy) : KeepsSubLoc (visit_ptr_offset ctx op result_ty) := by
  intro st st' h
  cases hq : result_ty.desc.qty
  case Array =>
    simp only [visit_ptr_offset, ptr_offset_arg_expect, hq] at h
    cases h
  all_goals
    simp only [visit_ptr_offset, ptr_offset_arg_expect, hq, Option.bind_eq_some,
      Option.some.injEq] at h
    obtain ⟨st1, h1, h2⟩ := h
    have e1 := enter_keeps _ _ (visit_operand_desc_keeps ctx op _) _ _ h1
    rw [← h2]
    split <;> exact e1

theorem visit_slice_as_ptr_keeps (ctx : AnalysisCtx) (op : Operand)
    (result_lty : LTy) : KeepsSubLoc (visit_slice_as_ptr ctx op result_lty) := by
  intro st st' h
  simp only [visit_slice_as_ptr] at h
  split at h <;> (cases h; rfl)

theorem visit_statement_keeps (ctx : AnalysisCtx) (stmt : StatementKind)
    (loc : Location) : KeepsSubLoc (visit_statement ctx stmt loc) := by
  intro st st' h
  unfold visit_statement at h
  cases stmt <;> try (cases h; rfl)
  case SetDiscriminant => cases h
  case CopyNonOverlapping => cases h
  case Assign pl rv =>
    simp only at h
    split at h
    · cases h; rfl
    · rw [Option.bind_eq_some] at h
      obtain ⟨st1, h1, h⟩ := h
      rw [Option.bind_eq_some] at h
      obtain ⟨st3, h3, h⟩ := h
      rw [Option.bind_eq_some] at h
      obtain ⟨st4, h4, h⟩ := h
      rw [Option.bind_eq_some] at h
      obtain ⟨st5, h5, h⟩ := h
      have e1 : st1.sub_loc = st.sub_loc := by
        split at h1
        · exact enter_keeps _ _ (keeps_emit_some _) { st with loc := loc } st1 h1
        · cases h1; rfl
      have e3 : st3.sub_loc = st1.sub_loc := by
        split at h3
        · rw [Option.bind_eq_some] at h3
          obtain ⟨st2, h2a, h2b⟩ := h3
          have e2 : st2.sub_loc = st1.sub_loc := by
            split at h2a
            · exact enter_keeps _ _ (keeps_enter_emit _ _) _ _ h2a
            · cases h2a; rfl
          rw [← e2]
          split at h2b
          · split at h2b
            · exact enter_keeps _ _ (keeps_enter_emit _ _) _ _ h2b
            · cases h2b; rfl
          · cases h2b; rfl
        · cases h3; rfl
      have e4 : st4.sub_loc = st3.sub_loc :=
        enter_keeps _ _ (visit_rvalue_keeps ctx rv _) _ _ h4
      have e5 : st5.sub_loc = st4.sub_loc :=
        emit_cast_lty_lty_keeps _ _ _ _ h5
      have e6 : st'.sub_loc = st5.sub_loc :=
        enter_keeps _ _ (visit_place_keeps pl) _ _ h
      rw [e6, e5, e4, e3, e1]

theorem visit_terminator_keeps (ctx : AnalysisCtx) (term : TerminatorKind)
    (loc : Location) : KeepsSubLoc (visit_terminator ctx term loc) := by
  intro st st' h
  unfold visit_terminator at h
  cases term <;> try (cases h; rfl)
  case InlineAsm => cases h
  case Call func args destination =>
    simp only at h
    split at h
    · split at h
      · exact visit_ptr_offset_keeps ctx _ _ { st with loc := loc } st' h
      · cases h
    · split at h
      · exact visit_slice_as_ptr_keeps ctx _ _ { st with loc := loc } st' h
      · cases h
    · cases h; rfl

theorem visit_instr_keeps (ctx : AnalysisCtx) (i : Location × Instr) :
    KeepsSubLoc (visit_instr ctx i) := by
  intro st st' h
  unfold visit_instr at h
  split at h
  · exact visit_statement_keeps ctx _ _ _ _ h
  · exact visit_terminator_keeps ctx _ _ _ _ h

theorem run_instrs_keeps (ctx : AnalysisCtx) (instrs : List (Location × Instr)) :
    KeepsSubLoc (run_instrs ctx instrs) := by
  induction instrs with
  | nil => intro st st' h; cases h; rfl
  | cons i rest ih =>
      intro st st' h
      unfold run_instrs at h
      rw [Option.bind_eq_some] at h
      obtain ⟨st1, h1, h2⟩ := h
      rw [ih _ _ h2]
      exact visit_instr_keeps ctx i _ _ h1

/-- The emitted-kind list of `emit_cast_desc_desc` holds at most one
element. -/
theorem emit_cast_desc_desc_len (a b : TypeDesc)
    (r : List RewriteKind × Bool) (h : emit_cast_desc_desc a b = some r) :
    r.1.length ≤ 1 := by
  unfold emit_cast_desc_desc at h
  split at h
  · cases h
  · split at h
    · cases h; decide
    · split at h
      · cases h; decide
      · cases h; decide

/-- Emission behavior of `visit_operand_desc`: the location and
sub-location path are unchanged, and at most one cast operation is
appended, keyed at the current location and path. -/
theorem visit_operand_desc_spec (ctx : AnalysisCtx) (op : Operand)
    (d : TypeDesc) (st st' : VisitorState)
    (h : visit_operand_desc ctx op d st = some st') :
    st'.loc = st.loc ∧ st'.sub_loc = st.sub_loc ∧
    ∃ ops : List RewriteKind, ops.length ≤ 1 ∧
      st'.rewrites = st.rewrites ++ ops.map (fun k => (st.loc, st.sub_loc, k)) := by
  cases op
  case Constant =>
    cases h
    exact ⟨rfl, rfl, [], by decide, by simp⟩
  all_goals
    unfold visit_operand_desc at h
    simp only at h
    split at h
    case isTrue =>
      unfold emit_cast_lty_desc emit_cast_desc_desc_v at h
      cases hc : emit_cast_desc_desc (ctx.type_of_place _).desc d with
      | none => rw [hc] at h; cases h
      | some r =>
          rw [hc] at h
          injection h with h
          rw [← h]
          exact ⟨foldl_emit_loc _ _, foldl_emit_sub_loc _ _,
            r.1, emit_cast_desc_desc_len _ _ _ hc, foldl_emit_rewrites _ _⟩
    case isFalse =>
      cases h
      exact ⟨rfl, rfl, [], by decide, by simp⟩

/-! ### Concrete contexts for witnesses and counterexamples -/

/-- A default descriptor (`&T` to a single element). -/
def default_desc : TypeDesc := ⟨Ownership.Imm, Quantity.Single, 0⟩

/-- An unlabeled, non-raw type. -/
def default_lty : LTy := ⟨true, false, default_desc⟩

/-- An analysis context in which no pointer is labeled and no flag is
set. -/
def trivial_ctx : AnalysisCtx where
  should_skip_stmt := fun _ => false
  local_is_any_ptr := fun _ => false
  local_desc := fun _ => default_desc
  local_addr_desc := fun _ => default_desc
  local_flags_cell := fun _ => false
  type_of_place := fun _ => default_lty
  type_of_rvalue := fun _ _ => default_lty
  type_of_operand := fun _ => default_lty
  callee := fun _ => Callee.Other

/-- A context in which every place is a labeled raw pointer described as
`Mut`/`Slice`, so that casting it to an `Imm` expectation emits
`MutToImm`. -/
def mut_slice_ctx : AnalysisCtx :=
  { trivial_ctx with
    type_of_place := fun _ => ⟨false, true, ⟨Ownership.Mut, Quantity.Slice, 0⟩⟩ }

/-! ### Claims C2 - C6 -/

/-- Claim C2 counterexample: `emit_cast_desc_desc` is *not* a soft
failure for every pair of distinct descriptors outside the `MutToImm`
narrowing: two descriptors that differ in pointee type trip the
`assert_eq!` on region-erased pointee types, aborting the pass (modelled
as `none`) instead of emitting the "unsupported cast" diagnostic and
continuing (which would be `some ([], true)`). -/
theorem claim_C2_counterexample :
    (⟨Ownership.Imm, Quantity.Single, 0⟩ : TypeDesc) ≠
      ⟨Ownership.Imm, Quantity.Single, 1⟩ ∧
    ((⟨Ownership.Imm, Quantity.Single, 0⟩ : TypeDesc).own,
      (⟨Ownership.Imm, Quantity.Single, 1⟩ : TypeDesc).own) ≠
      (Ownership.Mut, Ownership.Imm) ∧
    emit_cast_desc_desc ⟨Ownership.Imm, Quantity.Single, 0⟩
      ⟨Ownership.Imm, Quantity.Single, 1⟩ = none := by
  decide

/-- Claim C2 amended: for descriptors with equal pointee type (the
helper asserts this), `emit_cast_desc_desc` emits nothing when the
descriptors are equal, exactly one `MutToImm` when they have equal
quantity and ownership `Mut` vs `Imm`, and otherwise emits nothing and
only prints the "unsupported cast" diagnostic, without aborting. -/
theorem claim_C2_amended (a b : TypeDesc) (hp : a.pointee_ty = b.pointee_ty) :
    emit_cast_desc_desc a b =
      some (if a = b then ([], false)
            else if a.qty = b.qty ∧ (a.own, b.own) = (Ownership.Mut, Ownership.Imm)
            then ([RewriteKind.MutToImm], false)
            else ([], true)) := by
  by_cases hab : a = b
  · simp [emit_cast_desc_desc, hab]
  · unfold emit_cast_desc_desc
    rw [if_neg (by simp [hp]), if_neg hab, if_neg hab]
    split <;> rfl

/-- Witness for the amended claim C2 at concrete inputs: a `Mut`/`Slice`
to `Imm`/`Slice` cast over the same pointee emits exactly `MutToImm`. -/
theorem claim_C2_witness :
    emit_cast_desc_desc ⟨Ownership.Mut, Quantity.Slice, 7⟩
      ⟨Ownership.Imm, Quantity.Slice, 7⟩ =
      some ([RewriteKind.MutToImm], false) :=
  (claim_C2_amended ⟨Ownership.Mut, Quantity.Slice, 7⟩
    ⟨Ownership.Imm, Quantity.Slice, 7⟩ rfl).trans (by decide)

/-- Claim C3 counterexample: when the offset argument needs a cast, the
call's location receives *three* operations, not exactly two: the
`MutToImm` cast at the `CallArg(0)` sub-location precedes `OffsetSlice`
and `SliceFirst`. -/
theorem claim_C3_counterexample :
    visit_ptr_offset mut_slice_ctx (Operand.Copy ⟨0, []⟩)
        ⟨false, true, ⟨Ownership.Imm, Quantity.Single, 0⟩⟩ init_state =
      some ⟨⟨0, 0⟩, [],
        [(⟨0, 0⟩, [SubLoc.CallArg 0], RewriteKind.MutToImm),
         (⟨0, 0⟩, [], RewriteKind.OffsetSlice false),
         (⟨0, 0⟩, [], RewriteKind.SliceFirst false)]⟩ ∧
    ([(⟨0, 0⟩, [SubLoc.CallArg 0], RewriteKind.MutToImm),
      (⟨0, 0⟩, [], RewriteKind.OffsetSlice false),
      (⟨0, 0⟩, [], RewriteKind.SliceFirst false)] :
        List (Location × List SubLoc × RewriteKind)).length ≠ 2 := by
  decide

/-- Claim C3 amended: for a pointer-offset call whose result descriptor
has quantity `Single`, the expected argument descriptor takes the
result's ownership and pointee with quantity `Slice`, and the call's
top-level operations (empty sub-location path) are exactly
`OffsetSlice{mutable}` followed by `SliceFirst{mutable}`, in that order,
with `mutable` true iff the result ownership is `Mut`; the argument
annotation may additionally emit at most one cast operation, keyed at
the `CallArg(0)` sub-location and preceding the two. -/
theorem claim_C3_amended (ctx : AnalysisCtx) (op : Operand) (result_ty : LTy)
    (st st' : VisitorState) (hq : result_ty.desc.qty = Quantity.Single)
    (h : visit_ptr_offset ctx op result_ty st = some st') :
    ptr_offset_arg_expect result_ty.desc =
      some ⟨result_ty.desc.own, Quantity.Slice, result_ty.desc.pointee_ty⟩ ∧
    ∃ cast_ops : List RewriteKind, cast_ops.length ≤ 1 ∧
      st'.rewrites = st.rewrites ++
        cast_ops.map (fun k => (st.loc, st.sub_loc ++ [SubLoc.CallArg 0], k)) ++
        [(st.loc, st.sub_loc,
          RewriteKind.OffsetSlice (decide (result_ty.desc.own = Ownership.Mut))),
         (st.loc, st.sub_loc,
          RewriteKind.SliceFirst (decide (result_ty.desc.own = Ownership.Mut)))] ∧
      st'.sub_loc = st.sub_loc ∧ st'.loc = st.loc := by
  constructor
  · simp [ptr_offset_arg_expect, hq]
  · simp only [visit_ptr_offset, ptr_offset_arg_expect, hq, Option.bind_eq_some,
      Option.some.injEq, ite_true] at h
    obtain ⟨st1, h1, h2⟩ := h
    unfold enter at h1
    cases hin : visit_operand_desc ctx op _
        { st with sub_loc := st.sub_loc ++ [SubLoc.CallArg 0] } with
    | none => rw [hin] at h1; cases h1
    | some stm =>
        rw [hin] at h1
        injection h1 with h1
        obtain ⟨eloc, esub, ops, hops, hrw⟩ := visit_operand_desc_spec _ _ _ _ _ hin
        have e1loc : st1.loc = st.loc := by rw [← h1]; exact eloc
        have e1sub : st1.sub_loc = st.sub_loc := by rw [← h1]; simp [esub]
        have e1rw : st1.rewrites = st.rewrites ++
            ops.map (fun k => (st.loc, st.sub_loc ++ [SubLoc.CallArg 0], k)) := by
          rw [← h1]; simpa using hrw
        refine ⟨ops, hops, ?_, ?_, ?_⟩
        · rw [← h2]
          simp [emit, e1rw, e1loc, e1sub, List.append_assoc]
        · rw [← h2]
          exact e1sub
        · rw [← h2]
          exact e1loc

/-- Witness for the amended claim C3: a constant argument with an
`Imm`/`Single` result emits exactly `OffsetSlice{false}` then
`SliceFirst{false}` and no cast. -/
theorem claim_C3_witness :
    ptr_offset_arg_expect (⟨Ownership.Imm, Quantity.Single, 0⟩ : TypeDesc) =
      some ⟨Ownership.Imm, Quantity.Slice, 0⟩ ∧
    ∃ cast_ops : List RewriteKind, cast_ops.length ≤ 1 ∧
      ([(⟨0, 0⟩, [], RewriteKind.OffsetSlice false),
        (⟨0, 0⟩, [], RewriteKind.SliceFirst false)] :
          List (Location × List SubLoc × RewriteKind)) =
        [] ++ cast_ops.map (fun k => (⟨0, 0⟩, [] ++ [SubLoc.CallArg 0], k)) ++
        [(⟨0, 0⟩, [], RewriteKind.OffsetSlice false),
         (⟨0, 0⟩, [], RewriteKind.SliceFirst false)] ∧
      ([] : List SubLoc) = [] ∧ (⟨0, 0⟩ : Location) = ⟨0, 0⟩ := by
  have h := claim_C3_amended trivial_ctx Operand.Constant
    ⟨true, false, ⟨Ownership.Imm, Quantity.Single, 0⟩⟩ init_state
    ⟨⟨0, 0⟩, [],
      [(⟨0, 0⟩, [], RewriteKind.OffsetSlice false),
       (⟨0, 0⟩, [], RewriteKind.SliceFirst false)]⟩ rfl (by decide)
  exact h

/-- Claim C4: for an `as_ptr`-style call, when the operand's and the
result's descriptors agree in both ownership and quantity, exactly one
`RemoveAsPtr` operation is appended (keyed at the call with the current
sub-location path) and nothing else — in particular no cast; otherwise
nothing at all is appended.  The call never aborts. -/
theorem claim_C4 (ctx : AnalysisCtx) (op : Operand) (result_lty : LTy)
    (st : VisitorState) :
    ∃ st', visit_slice_as_ptr ctx op result_lty st = some st' ∧
      st'.loc = st.loc ∧ st'.sub_loc = st.sub_loc ∧
      st'.rewrites = st.rewrites ++
        (if (ctx.type_of_operand op).desc.own = result_lty.desc.own ∧
            (ctx.type_of_operand op).desc.qty = result_lty.desc.qty
         then [(st.loc, st.sub_loc, RewriteKind.RemoveAsPtr)] else []) := by
  by_cases hc : (ctx.type_of_operand op).desc.own = result_lty.desc.own ∧
      (ctx.type_of_operand op).desc.qty = result_lty.desc.qty
  · exact ⟨emit RewriteKind.RemoveAsPtr st, by simp [visit_slice_as_ptr, hc],
      rfl, rfl, by simp [hc, emit]⟩
  · exact ⟨st, by simp [visit_slice_as_ptr, hc], rfl, rfl, by simp [hc]⟩

/-- The operations the `AddressOf` arm of `visit_rvalue` is expected to
emit, per the spec: `RawToRef{false}` for a `Cell`-owned target,
`RawToRef{declared mutability == Mut}` for `Imm`/`Mut`, nothing
otherwise, keyed at the `RvalueOperand(0)` sub-location. -/
def address_of_expected_ops (mutbl : Mutability) (expect_ty : Option LTy)
    (loc : Location) (sub_loc : List SubLoc) :
    List (Location × List SubLoc × RewriteKind) :=
  match expect_ty with
  | none => []
  | some expect =>
    match expect.desc.own with
    | .Cell => [(loc, sub_loc ++ [SubLoc.RvalueOperand 0], .RawToRef false)]
    | .Imm | .Mut =>
        [(loc, sub_loc ++ [SubLoc.RvalueOperand 0],
          .RawToRef (decide (mutbl = Mutability.Mut)))]
    | .Raw | .RawMut => []

/-- Claim C5: for an `AddressOf` rvalue visited with a known expected
type, ownership `Cell` yields `RawToRef{mutable: false}` regardless of
the declared mutability, ownership `Imm`/`Mut` yields `RawToRef` whose
flag equals (declared mutability == `Mut`), and any other ownership (or
an unknown expected type) emits nothing; the operation is keyed at the
`RvalueOperand(0)` sub-location. -/
theorem claim_C5 (ctx : AnalysisCtx) (mutbl : Mutability) (pl : Place)
    (expect_ty : Option LTy) (st st' : VisitorState)
    (h : visit_rvalue ctx (.AddressOf mutbl pl) expect_ty st = some st') :
    st'.loc = st.loc ∧ st'.sub_loc = st.sub_loc ∧
    st'.rewrites = st.rewrites ++
      address_of_expected_ops mutbl expect_ty st.loc st.sub_loc := by
  cases expect_ty with
  | none =>
      simp only [visit_rvalue, enter, visit_place, Option.some_bind] at h
      injection h with h
      rw [← h]
      simp [address_of_expected_ops]
  | some expect =>
      simp only [visit_rvalue, enter, visit_place, Option.some_bind] at h
      cases hown : expect.desc.own <;> simp only [hown] at h <;>
        (injection h with h; rw [← h];
         simp [address_of_expected_ops, hown, emit])

/-- Witness for claim C5: with a `Cell`-owned expected type and declared
mutability `Mut`, the emitted operation is still `RawToRef{false}`. -/
theorem claim_C5_witness :
    (⟨⟨0, 0⟩, [],
       [(⟨0, 0⟩, [SubLoc.RvalueOperand 0], RewriteKind.RawToRef false)]⟩ :
        VisitorState).loc = init_state.loc ∧
    (⟨⟨0, 0⟩, [],
       [(⟨0, 0⟩, [SubLoc.RvalueOperand 0], RewriteKind.RawToRef false)]⟩ :
        VisitorState).sub_loc = init_state.sub_loc ∧
    (⟨⟨0, 0⟩, [],
       [(⟨0, 0⟩, [SubLoc.RvalueOperand 0], RewriteKind.RawToRef false)]⟩ :
        VisitorState).rewrites =
      init_state.rewrites ++
        address_of_expected_ops Mutability.Mut
          (some ⟨true, false, ⟨Ownership.Cell, Quantity.Single, 0⟩⟩)
          init_state.loc init_state.sub_loc := by
  have h := claim_C5 trivial_ctx Mutability.Mut ⟨0, []⟩
    (some ⟨true, false, ⟨Ownership.Cell, Quantity.Single, 0⟩⟩) init_state
    ⟨⟨0, 0⟩, [],
      [(⟨0, 0⟩, [SubLoc.RvalueOperand 0], RewriteKind.RawToRef false)]⟩
    (by decide)
  exact h

/-- Claim C6: the sub-location path stack discipline of the annotator:
`enter` leaves the stack exactly as it found it whenever its body does
(each push matched by exactly one pop on every successful return path);
`visit_statement` and `visit_terminator` preserve the stack on every
input; consequently, running any prefix of the instruction sequence from
the empty stack (as `gen_mir_rewrites` does, via `run_instrs` starting
from `init_state`) leaves the stack empty, so the stack is empty
immediately before and immediately after processing every statement and
terminator of the walk. -/
theorem claim_C6 :
    (∀ (sub : SubLoc) (f : VisitorState → Option VisitorState),
        KeepsSubLoc f → KeepsSubLoc (enter sub f)) ∧
    (∀ (ctx : AnalysisCtx) (stmt : StatementKind) (loc : Location),
        KeepsSubLoc (visit_statement ctx stmt loc)) ∧
    (∀ (ctx : AnalysisCtx) (term : TerminatorKind) (loc : Location),
        KeepsSubLoc (visit_terminator ctx term loc)) ∧
    (∀ (ctx : AnalysisCtx) (instrs : List (Location × Instr))
        (st st' : VisitorState), st.sub_loc = [] →
        run_instrs ctx instrs st = some st' → st'.sub_loc = []) :=
  ⟨enter_keeps, visit_statement_keeps, visit_terminator_keeps,
   fun ctx instrs st st' h0 h => (run_instrs_keeps ctx instrs st st' h).trans h0⟩

/-- Witness for claim C6: each conjunct applied at concrete inputs — an
`enter` around the identity body, a statement, a terminator, and a
two-instruction walk from the initial state, all ending with an empty
stack. -/
theorem claim_C6_witness :
    (∃ st', enter SubLoc.Dest (fun v => some v) init_state = some st' ∧
        st'.sub_loc = init_state.sub_loc) ∧
    (∃ st', visit_statement trivial_ctx StatementKind.Nop ⟨0, 0⟩ init_state =
        some st' ∧ st'.sub_loc = init_state.sub_loc) ∧
    (∃ st', visit_terminator trivial_ctx TerminatorKind.Return ⟨0, 1⟩
        init_state = some st' ∧ st'.sub_loc = init_state.sub_loc) ∧
    (∃ st', run_instrs trivial_ctx
        [(⟨0, 0⟩, Instr.stmt (StatementKind.Assign ⟨0, []⟩
            (Rvalue.Use Operand.Constant))),
         (⟨0, 1⟩, Instr.term TerminatorKind.Return)] init_state = some st' ∧
        st'.sub_loc = []) :=
  ⟨⟨init_state, rfl,
      claim_C6.1 SubLoc.Dest (fun v => some v)
        (fun u u' hu => by cases hu; rfl) init_state init_state rfl⟩,
   ⟨init_state, rfl,
      claim_C6.2.1 trivial_ctx StatementKind.Nop ⟨0, 0⟩ init_state
        init_state rfl⟩,
   ⟨⟨⟨0, 1⟩, [], []⟩, rfl,
      claim_C6.2.2.1 trivial_ctx TerminatorKind.Return ⟨0, 1⟩ init_state
        ⟨⟨0, 1⟩, [], []⟩ rfl⟩,
   ⟨⟨⟨0, 1⟩, [], []⟩, by decide,
      claim_C6.2.2.2 trivial_ctx
        [(⟨0, 0⟩, Instr.stmt (StatementKind.Assign ⟨0, []⟩
            (Rvalue.Use Operand.Constant))),
         (⟨0, 1⟩, Instr.term TerminatorKind.Return)]
        init_state ⟨⟨0, 1⟩, [], []⟩ rfl (by decide)⟩⟩

/-! ## Unlowering map builder (`rewrite/expr/unlower.rs`) -/

/-- The `MirOriginDesc` from `unlower.rs`. -/
inductive MirOriginDesc where
  | Expr
  | StoreIntoLocal
  deriving DecidableEq, Repr

/-- The `MirOrigin` from `unlower.rs` (HIR ids and spans as `Nat`). -/
structure MirOrigin where
  hir_id : Nat
  span : Nat
  desc : MirOriginDesc
  deriving DecidableEq, Repr

/-- A HIR expression, reduced to the two facts `record_desc` stores about
it: its id and its span. -/
structure HirExpr where
  hir_id : Nat
  span : Nat
  deriving DecidableEq, Repr

/-- Lookup in the unlowering map (`mir_map`), modelled as an association
list in insertion order. -/
def lookup_origin :
    List ((Location × List SubLoc) × MirOrigin) → Location × List SubLoc →
      Option MirOrigin
  | [], _ => none
  | p :: rest, k => if p.1 = k then some p.2 else lookup_origin rest k

/-- The `UnlowerVisitor::record_desc`: insert on a vacant key; on an occupied
key keep the map unchanged and report (second component) whether the
"conflicting origins" diagnostic was logged, i.e. whether the new origin
differs from the stored one. -/
def record_desc (m : List ((Location × List SubLoc) × MirOrigin))
    (k : Location × List SubLoc) (o : MirOrigin) :
    List ((Location × List SubLoc) × MirOrigin) × Bool :=
  match lookup_origin m k with
  | none => (m ++ [(k, o)], false)
  | some o' => (m, decide (¬ o' = o))

/-- Apply a sequence of `record_desc` writes to a map. -/
def apply_records (m : List ((Location × List SubLoc) × MirOrigin))
    (writes : List ((Location × List SubLoc) × MirOrigin)) :
    List ((Location × List SubLoc) × MirOrigin) :=
  writes.foldl (fun acc w => (record_desc acc w.1 w.2).1) m

/-- The `UnlowerVisitor::should_ignore_statement`: `FakeRead`,
`StorageLive`, `StorageDead` and `Nop` statements carry no semantic
content; terminators are never ignored. -/
def should_ignore_statement (stmt_at : Location → Instr) (loc : Location) :
    Bool :=
  match stmt_at loc with
  | .stmt k =>
      match k with
      | .FakeRead | .StorageLive | .StorageDead | .Nop => true
      | _ => false
  | .term _ => false

/-- The `UnlowerVisitor::get_last_assign`. -/
def get_last_assign (stmt_at : Location → Instr) (locs : List Location) :
    Option (Location × Place × Rvalue) :=
  locs.getLast?.bind fun loc =>
    match stmt_at loc with
    | .stmt (.Assign pl rv) => some (loc, pl, rv)
    | _ => none

/-- The `UnlowerVisitor::get_sole_assign`. -/
def get_sole_assign (stmt_at : Location → Instr) (locs : List Location) :
    Option (Location × Place × Rvalue) :=
  if locs.length ≠ 1 then none else get_last_assign stmt_at locs

/-- The `ExprKind::Assign` arm of `UnlowerVisitor::visit_expr_inner`:
`raw_locs` is the span-index lookup for the expression's span; the
result is the list of `record_desc` calls made (in order) and whether
the structural-mismatch warning was logged. -/
def visit_expr_assign (stmt_at : Location → Instr) (raw_locs : List Location)
    (ex pl rv : HirExpr) :
    List ((Location × List SubLoc) × MirOrigin) × Bool :=
  let locs := raw_locs.filter (fun l => !should_ignore_statement stmt_at l)
  if locs.length = 0 then ([], false)
  else
    match get_sole_assign stmt_at locs with
    | none => ([], true)
    | some (loc, _, _) =>
        ([((loc, []), ⟨ex.hir_id, ex.span, MirOriginDesc.Expr⟩),
          ((loc, [SubLoc.Dest]), ⟨pl.hir_id, pl.span, MirOriginDesc.Expr⟩),
          ((loc, [SubLoc.Rvalue]), ⟨rv.hir_id, rv.span, MirOriginDesc.Expr⟩)],
         false)

/-- One assignment expression visited during the HIR walk, with its
span-index lookup result. -/
structure AssignExprEvent where
  raw_locs : List Location
  ex : HirExpr
  pl : HirExpr
  rv : HirExpr

/-- The HIR walk of the unlowering builder over assignment expressions:
each expression's record calls are folded into the shared map through
`record_desc`. -/
def run_unlower_visitor (stmt_at : Location → Instr)
    (exprs : List AssignExprEvent) :
    List ((Location × List SubLoc) × MirOrigin) :=
  exprs.foldl
    (fun m e =>
      apply_records m (visit_expr_assign stmt_at e.raw_locs e.ex e.pl e.rv).1)
    []

/-- The `unlower`: if the enclosing definition of the MIR body carries the
`automatically_derived` attribute, return the empty map before building
the span index or walking the HIR; otherwise run the visitor. -/
def unlower (auto_derived : Bool) (stmt_at : Location → Instr)
    (exprs : List AssignExprEvent) :
    List ((Location × List SubLoc) × MirOrigin) :=
  if auto_derived then [] else run_unlower_visitor stmt_at exprs

/-- Looking up in a map extended by one entry: an existing binding wins;
otherwise the new entry answers exactly for its own key. -/
theorem lookup_origin_append
    (m : List ((Location × List SubLoc) × MirOrigin))
    (k k' : Location × List SubLoc) (o' : MirOrigin) :
    lookup_origin (m ++ [(k', o')]) k =
      (match lookup_origin m k with
       | some o => some o
       | none => if k' = k then some o' else none) := by
  induction m with
  | nil =>
      by_cases hk : k' = k <;> simp [lookup_origin, hk]
  | cons p rest ih =>
      by_cases hp : p.1 = k <;> simp [lookup_origin, hp, ih]

/-- First-writer-wins, generalized over the starting map: after a write
sequence, a key answers with its prior binding if any, else with the
first write to it. -/
theorem apply_records_lookup_gen
    (writes : List ((Location × List SubLoc) × MirOrigin)) :
    ∀ (m : List ((Location × List SubLoc) × MirOrigin))
      (k : Location × List SubLoc),
      lookup_origin (apply_records m writes) k =
        (match lookup_origin m k with
         | some o => some o
         | none => (writes.find? (fun w => decide (w.1 = k))).map (·.2)) := by
  induction writes with
  | nil =>
      intro m k
      cases h : lookup_origin m k <;> simp [apply_records, h]
  | cons w rest ih =>
      intro m k
      have step : apply_records m (w :: rest) =
          apply_records (record_desc m w.1 w.2).1 rest := rfl
      rw [step, ih]
      unfold record_desc
      cases hw : lookup_origin m w.1 with
      | none =>
          simp only
          rw [lookup_origin_append]
          cases hk : lookup_origin m k with
          | some o => simp [List.find?]
          | none =>
              by_cases hk2 : w.1 = k <;> simp [List.find?, hk2]
      | some o' =>
          simp only
          cases hk : lookup_origin m k with
          | some o => simp [List.find?]
          | none =>
              have hne : ¬ w.1 = k := by
                intro e
                rw [e, hk] at hw
                cases hw
              simp [List.find?, hne]

/-! ### Claims C7, C8, C10 -/

/-- Claim C7: for every sequence of writes into the unlowering map, each
key holds the origin of the first write to it; a later write to an
occupied key leaves the map unchanged, logging the conflict diagnostic
iff the new origin differs from the stored one (an equal rewrite is a
silent no-op); a write to a vacant key inserts without logging.
`record_desc` is total, so the session always continues. -/
theorem claim_C7 :
    (∀ (writes : List ((Location × List SubLoc) × MirOrigin))
       (k : Location × List SubLoc),
        lookup_origin (apply_records [] writes) k =
          (writes.find? (fun w => decide (w.1 = k))).map (·.2)) ∧
    (∀ (m : List ((Location × List SubLoc) × MirOrigin)) k o o',
        lookup_origin m k = some o' →
        (record_desc m k o).1 = m ∧
        ((record_desc m k o).2 = true ↔ ¬ o' = o)) ∧
    (∀ (m : List ((Location × List SubLoc) × MirOrigin)) k o,
        lookup_origin m k = none →
        record_desc m k o = (m ++ [(k, o)], false)) := by
  refine ⟨fun writes k => ?_, fun m k o o' h => ?_, fun m k o h => ?_⟩
  · rw [apply_records_lookup_gen writes [] k]
    simp [lookup_origin]
  · unfold record_desc
    rw [h]
    simp
  · unfold record_desc
    rw [h]

/-- Witness for claim C7: two writes to one key with different origins —
the first origin is stored, the second write changes nothing and logs a
conflict; the initial write into the empty map logs nothing. -/
theorem claim_C7_witness :
    lookup_origin
        (apply_records []
          [((⟨0, 0⟩, []), ⟨1, 10, MirOriginDesc.Expr⟩),
           ((⟨0, 0⟩, []), ⟨2, 20, MirOriginDesc.Expr⟩)])
        (⟨0, 0⟩, []) =
      some ⟨1, 10, MirOriginDesc.Expr⟩ ∧
    ((record_desc [((⟨0, 0⟩, []), ⟨1, 10, MirOriginDesc.Expr⟩)]
        (⟨0, 0⟩, []) ⟨2, 20, MirOriginDesc.Expr⟩).1 =
      [((⟨0, 0⟩, []), ⟨1, 10, MirOriginDesc.Expr⟩)] ∧
      ((record_desc [((⟨0, 0⟩, []), ⟨1, 10, MirOriginDesc.Expr⟩)]
          (⟨0, 0⟩, []) ⟨2, 20, MirOriginDesc.Expr⟩).2 = true ↔
        ¬(⟨1, 10, MirOriginDesc.Expr⟩ : MirOrigin) =
          ⟨2, 20, MirOriginDesc.Expr⟩)) ∧
    record_desc [] (⟨0, 0⟩, []) ⟨1, 10, MirOriginDesc.Expr⟩ =
      ([((⟨0, 0⟩, []), ⟨1, 10, MirOriginDesc.Expr⟩)], false) := by
  refine ⟨?_, ?_, ?_⟩
  · rw [claim_C7.1
      [((⟨0, 0⟩, []), ⟨1, 10, MirOriginDesc.Expr⟩),
       ((⟨0, 0⟩, []), ⟨2, 20, MirOriginDesc.Expr⟩)] (⟨0, 0⟩, [])]
    decide
  · exact claim_C7.2.1 [((⟨0, 0⟩, []), ⟨1, 10, MirOriginDesc.Expr⟩)]
      (⟨0, 0⟩, []) ⟨2, 20, MirOriginDesc.Expr⟩ ⟨1, 10, MirOriginDesc.Expr⟩
      (by decide)
  · exact claim_C7.2.2 [] (⟨0, 0⟩, []) ⟨1, 10, MirOriginDesc.Expr⟩ (by decide)

/-- Claim C8 counterexample: an assignment expression whose span matches
only ignorable instructions (filtered count zero, hence "not one") is
skipped silently — no structural-mismatch warning is logged, where the
claim requires one. -/
theorem claim_C8_counterexample :
    visit_expr_assign (fun _ => Instr.stmt StatementKind.StorageLive)
        [⟨0, 0⟩] ⟨1, 10⟩ ⟨2, 11⟩ ⟨3, 12⟩ = ([], false) ∧
    (([⟨0, 0⟩] : List Location).filter
        (fun l => !should_ignore_statement
          (fun _ => Instr.stmt StatementKind.StorageLive) l)).length ≠ 1 := by
  decide

/-- Claim C8 amended: for a HIR assignment expression, if after
filtering ignorable instruction kinds exactly one instruction carries
its span and that instruction is an assignment, exactly three entries
are recorded — the whole expression at the empty path, the destination
at `Dest`, the right-hand side at `Rvalue` — with no warning; if the
filtered count is zero the expression is skipped silently (no warning,
no entries); otherwise (count above one, or the instruction is not an
assignment) a structural-mismatch warning is logged and no entries are
recorded.  The visit is total, so the session never aborts. -/
theorem claim_C8_amended :
    (∀ (stmt_at : Location → Instr) (raw_locs : List Location)
       (ex pl rv : HirExpr) (l : Location) (mir_pl : Place) (mir_rv : Rvalue),
        raw_locs.filter (fun x => !should_ignore_statement stmt_at x) = [l] →
        stmt_at l = Instr.stmt (StatementKind.Assign mir_pl mir_rv) →
        visit_expr_assign stmt_at raw_locs ex pl rv =
          ([((l, []), ⟨ex.hir_id, ex.span, MirOriginDesc.Expr⟩),
            ((l, [SubLoc.Dest]), ⟨pl.hir_id, pl.span, MirOriginDesc.Expr⟩),
            ((l, [SubLoc.Rvalue]), ⟨rv.hir_id, rv.span, MirOriginDesc.Expr⟩)],
           false)) ∧
    (∀ (stmt_at : Location → Instr) (raw_locs : List Location)
       (ex pl rv : HirExpr),
        raw_locs.filter (fun x => !should_ignore_statement stmt_at x) ≠ [] →
        get_sole_assign stmt_at
          (raw_locs.filter (fun x => !should_ignore_statement stmt_at x)) =
          none →
        visit_expr_assign stmt_at raw_locs ex pl rv = ([], true)) ∧
    (∀ (stmt_at : Location → Instr) (raw_locs : List Location)
       (ex pl rv : HirExpr),
        raw_locs.filter (fun x => !should_ignore_statement stmt_at x) = [] →
        visit_expr_assign stmt_at raw_locs ex pl rv = ([], false)) := by
  refine ⟨fun stmt_at raw_locs ex pl rv l mir_pl mir_rv h1 h2 => ?_,
    fun stmt_at raw_locs ex pl rv h1 h2 => ?_,
    fun stmt_at raw_locs ex pl rv h1 => ?_⟩
  · simp only [visit_expr_assign, h1]
    simp [get_sole_assign, get_last_assign, h2]
  · simp only [visit_expr_assign, h2]
    rw [if_neg]
    simp [List.length_eq_zero, h1]
  · simp [visit_expr_assign, h1]

/-- Witness for the amended claim C8: a sole matching assignment records
three entries with no warning; a sole matching call terminator logs the
warning with no entries; an empty lookup is silently skipped. -/
theorem claim_C8_witness :
    visit_expr_assign
        (fun _ => Instr.stmt (StatementKind.Assign ⟨0, []⟩
          (Rvalue.Use Operand.Constant))) [⟨0, 0⟩] ⟨1, 10⟩ ⟨2, 11⟩ ⟨3, 12⟩ =
      ([((⟨0, 0⟩, []), ⟨1, 10, MirOriginDesc.Expr⟩),
        ((⟨0, 0⟩, [SubLoc.Dest]), ⟨2, 11, MirOriginDesc.Expr⟩),
        ((⟨0, 0⟩, [SubLoc.Rvalue]), ⟨3, 12, MirOriginDesc.Expr⟩)], false) ∧
    visit_expr_assign (fun _ => Instr.term TerminatorKind.Return)
        [⟨0, 0⟩] ⟨1, 10⟩ ⟨2, 11⟩ ⟨3, 12⟩ = ([], true) ∧
    visit_expr_assign (fun _ => Instr.stmt StatementKind.Nop)
        [] ⟨1, 10⟩ ⟨2, 11⟩ ⟨3, 12⟩ = ([], false) := by
  refine ⟨?_, ?_, ?_⟩
  · exact claim_C8_amended.1
      (fun _ => Instr.stmt (StatementKind.Assign ⟨0, []⟩
        (Rvalue.Use Operand.Constant))) [⟨0, 0⟩] ⟨1, 10⟩ ⟨2, 11⟩ ⟨3, 12⟩
      ⟨0, 0⟩ ⟨0, []⟩ (Rvalue.Use Operand.Constant) (by decide) rfl
  · exact claim_C8_amended.2.1 (fun _ => Instr.term TerminatorKind.Return)
      [⟨0, 0⟩] ⟨1, 10⟩ ⟨2, 11⟩ ⟨3, 12⟩ (by decide) rfl
  · exact claim_C8_amended.2.2 (fun _ => Instr.stmt StatementKind.Nop)
      [] ⟨1, 10⟩ ⟨2, 11⟩ ⟨3, 12⟩ (by decide)

/-- Claim C10: for a MIR body whose enclosing definition carries the
`automatically_derived` attribute, `unlower` returns the empty map — no
key is present — regardless of the body and the HIR expressions. -/
theorem claim_C10 (stmt_at : Location → Instr) (exprs : List AssignExprEvent)
    (k : Location × List SubLoc) :
    unlower true stmt_at exprs = [] ∧
    lookup_origin (unlower true stmt_at exprs) k = none := by
  constructor
  · rfl
  · rfl

end C2Rust
